import Mathlib

/-!
Verification development for the batch classify-and-copy utility
(scripts/copy_non_investment_docx.py).

The script enumerates docx files, classifies each one as "investment
advice" or not (content strategy: first non-empty trimmed paragraph
starts with the marker phrase; filename fallback strategy: keyword
containment in the lowercased file name), and copies the non-matching
files into a date-stamped destination directory, renaming on collision
with an HHMMSS suffix.

String operations are modelled character-wise over List Char, matching
Python string semantics (startswith, strip, lower, substring
containment, pathlib stem/suffix).
-/

/-- Character-wise prefix test, modelling Python str.startswith. -/
def strStartsWith (s pat : String) : Bool :=
  pat.data.isPrefixOf s.data

/-- Substring search over character lists, modelling Python `in`. -/
def containsChars (pat : List Char) : List Char → Bool
  | [] => pat.isEmpty
  | c :: rest => pat.isPrefixOf (c :: rest) || containsChars pat rest

/-- Substring containment, modelling Python `pat in s`. -/
def strContains (s pat : String) : Bool :=
  containsChars pat.data s.data

/-- Whitespace characters stripped by Python str.strip (common cases). -/
def isWSChar (c : Char) : Bool :=
  c == ' ' || c == '\t' || c == '\n' || c == '\r'

/-- Strip leading and trailing whitespace from a character list. -/
def trimChars (cs : List Char) : List Char :=
  ((cs.dropWhile isWSChar).reverse.dropWhile isWSChar).reverse

/-- Python str.strip. -/
def strTrim (s : String) : String :=
  String.mk (trimChars s.data)

/-- Python truthiness of a string: empty means falsy. -/
def strIsEmpty (s : String) : Bool :=
  s.data.isEmpty

/-- Python str.lower, character-wise. -/
def strToLower (s : String) : String :=
  String.mk (s.data.map Char.toLower)

/-- Index of the last dot in a character list, if any. -/
def rfindDot : List Char → Option Nat
  | [] => none
  | c :: rest =>
    match rfindDot rest with
    | some i => some (i + 1)
    | none => if c == '.' then some 0 else none

/-- pathlib PurePath.stem: the file name without its final extension.
The extension is recognized only when the last dot is neither the first
nor past the last character. -/
def pathStem (name : String) : String :=
  match rfindDot name.data with
  | some i =>
    if 0 < i ∧ i < name.data.length - 1 then String.mk (name.data.take i) else name
  | none => name

/-- pathlib PurePath.suffix: the final extension including the dot,
or the empty string when there is none. -/
def pathSuffix (name : String) : String :=
  match rfindDot name.data with
  | some i =>
    if 0 < i ∧ i < name.data.length - 1 then String.mk (name.data.drop i) else ""
  | none => ""

/-- Result of opening a docx document: the list of its paragraph texts in
order, or a read failure (corrupt file, I/O error). -/
inductive ReadResult where
  | ok (paragraphs : List String)
  | readError
deriving DecidableEq

/-- A candidate file: its file name, the outcome of reading it as a
document, whether the copy operation on it raises an I/O error, and the
wall-clock HHMMSS timestamp observed at its collision check. -/
structure Candidate where
  name : String
  read : ReadResult
  copyFails : Bool
  ts : String
deriving DecidableEq

/-- The marker phrase that classifies a document as investment advice. -/
def markerPhrase : String := "投资建议"

/-- The fixed keyword set of the filename fallback strategy. -/
def investment_keywords : List String := ["买入", "卖出", "持有", "投资", "建议"]

/-- First paragraph that is non-empty after trimming, or the empty
string; mirrors the list comprehension in extract_first_paragraph. -/
def firstPara (ps : List String) : String :=
  (((ps.map strTrim).filter (fun s => !(strIsEmpty s))).headD "")

/-- extract_first_paragraph: first non-empty trimmed paragraph of the
document, or the empty string when the read fails or no paragraph
remains. -/
def extract_first_paragraph : ReadResult → String
  | ReadResult.ok ps => firstPara ps
  | ReadResult.readError => ""

/-- is_investment_advice_by_filename: the lowercased file name contains
any of the fixed keywords. -/
def is_investment_advice_by_filename (filename : String) : Bool :=
  let filename_lower := strToLower filename
  investment_keywords.any (fun keyword => strContains filename_lower keyword)

/-- The should_copy flag computed in the per-file loop: content strategy
when the docx library is available, filename strategy otherwise. -/
def shouldCopy (docxAvailable : Bool) (c : Candidate) : Bool :=
  if docxAvailable then
    !(strStartsWith (extract_first_paragraph c.read) markerPhrase)
  else
    !(is_investment_advice_by_filename c.name)

/-- The classifier verdict: true when the candidate is investment advice
(and hence is skipped). -/
def isInvestmentAdvice (docxAvailable : Bool) (c : Candidate) : Bool :=
  !(shouldCopy docxAvailable c)

/-- Terminal outcome of one candidate inside the per-file loop. -/
inductive StepOutcome where
  | copied (target : String)
  | skipped
  | errored
deriving DecidableEq

/-- State threaded through the per-file loop: the file names present in
the destination directory, the copied-count, how many copies landed on
an already-existing path (shutil.copy2 overwrites silently), how many
per-file errors reached the outer except, how many read errors were
reported inside extract_first_paragraph, and the per-candidate outcome
log. -/
structure RunState where
  destFiles : List String
  copiedCount : Nat
  overwriteCount : Nat
  errorCount : Nat
  readErrorCount : Nat
  log : List StepOutcome
deriving DecidableEq

/-- Initial state of a run over a destination directory. -/
def initState (dest : List String) : RunState :=
  { destFiles := dest, copiedCount := 0, overwriteCount := 0,
    errorCount := 0, readErrorCount := 0, log := [] }

/-- The target path chosen for a candidate: its bare file name, or the
stem_HHMMSS variant when the bare name already exists in the
destination directory. -/
def targetName (st : RunState) (c : Candidate) : String :=
  if c.name ∈ st.destFiles then
    pathStem c.name ++ "_" ++ c.ts ++ pathSuffix c.name
  else c.name

/-- One iteration of the per-file loop of
copy_non_investment_docx_files: classify, then either skip, copy
(renaming on collision, overwriting when even the renamed target
exists), or record the per-file error that the outer except caught. -/
def processOne (docxAvailable : Bool) (st : RunState) (c : Candidate) : RunState :=
  let readErrs :=
    if docxAvailable then
      match c.read with
      | ReadResult.readError => st.readErrorCount + 1
      | ReadResult.ok _ => st.readErrorCount
    else st.readErrorCount
  if shouldCopy docxAvailable c then
    let target := targetName st c
    if c.copyFails then
      { st with readErrorCount := readErrs,
                errorCount := st.errorCount + 1,
                log := st.log ++ [StepOutcome.errored] }
    else
      { destFiles := if target ∈ st.destFiles then st.destFiles else st.destFiles ++ [target],
        copiedCount := st.copiedCount + 1,
        overwriteCount := st.overwriteCount + (if target ∈ st.destFiles then 1 else 0),
        errorCount := st.errorCount,
        readErrorCount := readErrs,
        log := st.log ++ [StepOutcome.copied target] }
  else
    { st with readErrorCount := readErrs, log := st.log ++ [StepOutcome.skipped] }

/-- The whole per-file loop over the candidate list. -/
def runCandidates (docxAvailable : Bool) (st : RunState) (cs : List Candidate) : RunState :=
  cs.foldl (processOne docxAvailable) st

/-- Number of copied entries in an outcome log. -/
def countCopied (l : List StepOutcome) : Nat :=
  (l.filter (fun o => match o with
    | StepOutcome.copied _ => true
    | _ => false)).length

/-- The filesystem facts the tool consults in directory mode: whether
the fixed source directory exists, the candidates its recursive docx
glob yields, and the names already present in the destination
directory. -/
structure World where
  sourceDirExists : Bool
  sourceFiles : List Candidate
  destFiles : List String

/-- A single explicit path argument: whether the path exists, and the
candidate obtained from it. -/
structure SingleArg where
  fileExists : Bool
  cand : Candidate

/-- Observable result of a main invocation: the process exit code,
whether the destination directory mkdir was invoked (it creates the
date-stamped directory when absent), and the final loop state when the
per-file loop ran. -/
structure MainResult where
  exitCode : Nat
  mkdirInvoked : Bool
  ranState : Option RunState
deriving DecidableEq

/-- The main entry point on its deterministic paths: with one argument,
the path must exist and have the lowercased .docx extension, else an
error is printed and nothing happens; with no argument, the destination
directory is created first, then the source directory is checked
(returning early, with exit code 0, when it is missing), then the
per-file loop runs. -/
def mainRun (docxAvailable : Bool) (w : World) (arg : Option SingleArg) : MainResult :=
  match arg with
  | some a =>
    if a.fileExists = true ∧ strToLower (pathSuffix a.cand.name) = ".docx" then
      { exitCode := 0, mkdirInvoked := true,
        ranState := some (runCandidates docxAvailable (initState w.destFiles) [a.cand]) }
    else
      { exitCode := 0, mkdirInvoked := false, ranState := none }
  | none =>
    if w.sourceDirExists then
      { exitCode := 0, mkdirInvoked := true,
        ranState := some (runCandidates docxAvailable (initState w.destFiles) w.sourceFiles) }
    else
      { exitCode := 0, mkdirInvoked := true, ranState := none }

/-- Concrete document starting with the marker phrase (after trimming). -/
def cW1 : Candidate := ⟨"报告A.docx", ReadResult.ok ["  投资建议：买入XYZ  "], false, "120000"⟩

/-- Concrete document whose first non-empty paragraph is not the marker. -/
def cW2 : Candidate := ⟨"报告B.docx", ReadResult.ok ["", "市场观察：走强"], false, "120001"⟩

/-- Concrete file whose name contains the keyword 投资. -/
def cW3 : Candidate := ⟨"投资建议报告.docx", ReadResult.ok [], false, "0"⟩

/-- Same file name as cW3 with entirely different content. -/
def cW4 : Candidate := ⟨"投资建议报告.docx", ReadResult.readError, true, "1"⟩

/-- Document with the marker phrase only in a later paragraph. -/
def cW5 : Candidate := ⟨"later.docx", ReadResult.ok ["市场观察", "投资建议：买入"], false, "0"⟩

/-- Document with the same first paragraph as cW5 and nothing after it. -/
def cW6 : Candidate := ⟨"other.docx", ReadResult.ok ["市场观察"], true, "9"⟩

/-- Candidate whose document read fails. -/
def cW7 : Candidate := ⟨"broken.docx", ReadResult.readError, false, "0"⟩

/-- Candidate whose copy operation raises an I/O error. -/
def cW8 : Candidate := ⟨"err.docx", ReadResult.ok ["市场观察"], true, "0"⟩

/-- Investment-advice document for the idempotence scenario. -/
def cW9 : Candidate := ⟨"投资建议.docx", ReadResult.ok ["投资建议：持有"], false, "0"⟩

/-- First of two source files sharing the name A.docx. -/
def cWa : Candidate := ⟨"A.docx", ReadResult.ok ["市场观察"], false, "100000"⟩

/-- Second of two source files sharing the name A.docx. -/
def cWb : Candidate := ⟨"A.docx", ReadResult.ok ["行业分析"], false, "100001"⟩

/-- An existing path argument that is not a docx file. -/
def aW : SingleArg := ⟨true, ⟨"C.txt", ReadResult.ok ["行业分析"], false, "0"⟩⟩

/-- A world whose fixed source directory is missing. -/
def wMissing : World := ⟨false, [], []⟩

/-- A world whose fixed source directory exists and is empty. -/
def wEmpty : World := ⟨true, [], []⟩

example : strStartsWith "投资建议：买入XYZ" markerPhrase = true := by decide
example : strStartsWith "市场观察" markerPhrase = false := by decide
example : firstPara ["", "  ", " 投资建议：买入 "] = "投资建议：买入" := by decide
example : is_investment_advice_by_filename "XYZ投资报告.docx" = true := by decide
example : is_investment_advice_by_filename "Report.docx" = false := by decide
example : pathStem "A.docx" = "A" := by decide
example : pathSuffix "A.docx" = ".docx" := by decide
example : pathSuffix "noext" = "" := by decide
example : pathSuffix ".hidden" = "" := by decide

example :
    (runCandidates true (initState [])
      [⟨"A.docx", ReadResult.ok ["投资建议：买入XYZ"], false, "120000"⟩,
       ⟨"B.docx", ReadResult.ok ["市场观察：..."], false, "120001"⟩]).copiedCount = 1 := by decide

example :
    (runCandidates true (initState [])
      [⟨"A.docx", ReadResult.ok ["x"], false, "120000"⟩,
       ⟨"A.docx", ReadResult.ok ["y"], false, "120001"⟩]).destFiles
      = ["A.docx", "A_120001.docx"] := by decide

lemma string_append_data (s t : String) : (s ++ t).data = s.data ++ t.data := by
  cases s; cases t; rfl

lemma marker_not_on_empty : strStartsWith "" markerPhrase = false := by decide

lemma runCandidates_cons (d : Bool) (st : RunState) (c : Candidate) (cs : List Candidate) :
    runCandidates d st (c :: cs) = runCandidates d (processOne d st c) cs := rfl

lemma processOne_log_length (d : Bool) (st : RunState) (c : Candidate) :
    (processOne d st c).log.length = st.log.length + 1 := by
  cases hsc : shouldCopy d c
  · simp [processOne, hsc]
  · cases hcf : c.copyFails
    · simp [processOne, hsc, hcf]
    · simp [processOne, hsc, hcf]

lemma runCandidates_log_length (d : Bool) (cs : List Candidate) :
    ∀ st : RunState, (runCandidates d st cs).log.length = st.log.length + cs.length := by
  induction cs with
  | nil => intro st; simp [runCandidates]
  | cons c cs ih =>
    intro st
    have h1 := processOne_log_length d st c
    have h2 := ih (processOne d st c)
    rw [runCandidates_cons, h2, h1]
    simp
    omega

lemma processOne_of_skip (d : Bool) (st : RunState) (c : Candidate)
    (h : shouldCopy d c = false) :
    (processOne d st c).destFiles = st.destFiles ∧
    (processOne d st c).copiedCount = st.copiedCount ∧
    (processOne d st c).overwriteCount = st.overwriteCount ∧
    (processOne d st c).errorCount = st.errorCount ∧
    (processOne d st c).log = st.log ++ [StepOutcome.skipped] := by
  simp [processOne, h]

lemma processOne_of_copy (d : Bool) (st : RunState) (c : Candidate)
    (hsc : shouldCopy d c = true) (hcf : c.copyFails = false) :
    (processOne d st c).destFiles =
      (if targetName st c ∈ st.destFiles then st.destFiles
       else st.destFiles ++ [targetName st c]) ∧
    (processOne d st c).copiedCount = st.copiedCount + 1 ∧
    (processOne d st c).overwriteCount =
      st.overwriteCount + (if targetName st c ∈ st.destFiles then 1 else 0) ∧
    (processOne d st c).errorCount = st.errorCount ∧
    (processOne d st c).log = st.log ++ [StepOutcome.copied (targetName st c)] := by
  simp [processOne, hsc, hcf]

lemma processOne_of_copyFail (d : Bool) (st : RunState) (c : Candidate)
    (hsc : shouldCopy d c = true) (hcf : c.copyFails = true) :
    (processOne d st c).destFiles = st.destFiles ∧
    (processOne d st c).copiedCount = st.copiedCount ∧
    (processOne d st c).overwriteCount = st.overwriteCount ∧
    (processOne d st c).errorCount = st.errorCount + 1 ∧
    (processOne d st c).log = st.log ++ [StepOutcome.errored] := by
  simp [processOne, hsc, hcf]

lemma countCopied_append (l l' : List StepOutcome) :
    countCopied (l ++ l') = countCopied l + countCopied l' := by
  simp [countCopied, List.filter_append]

lemma processOne_count_inv (d : Bool) (st : RunState) (c : Candidate)
    (h : st.copiedCount = countCopied st.log) :
    (processOne d st c).copiedCount = countCopied (processOne d st c).log := by
  cases hsc : shouldCopy d c
  · simp [processOne, hsc, countCopied_append, countCopied, h]
  · cases hcf : c.copyFails
    · simp [processOne, hsc, hcf, countCopied_append, countCopied, h]
    · simp [processOne, hsc, hcf, countCopied_append, countCopied, h]

lemma runCandidates_count_inv (d : Bool) (cs : List Candidate) :
    ∀ st : RunState, st.copiedCount = countCopied st.log →
      (runCandidates d st cs).copiedCount = countCopied (runCandidates d st cs).log := by
  induction cs with
  | nil => intro st h; exact h
  | cons c cs ih =>
    intro st h
    rw [runCandidates_cons]
    exact ih (processOne d st c) (processOne_count_inv d st c h)

lemma runCandidates_skip_all (d : Bool) (cs : List Candidate)
    (h : ∀ c ∈ cs, shouldCopy d c = false) :
    ∀ st : RunState, (runCandidates d st cs).destFiles = st.destFiles ∧
      (runCandidates d st cs).copiedCount = st.copiedCount := by
  induction cs with
  | nil => intro st; exact ⟨rfl, rfl⟩
  | cons c cs ih =>
    intro st
    have hc : shouldCopy d c = false := h c (by simp)
    have hrest : ∀ x ∈ cs, shouldCopy d x = false := fun x hx => h x (by simp [hx])
    have hstep := processOne_of_skip d st c hc
    have htail := ih hrest (processOne d st c)
    rw [runCandidates_cons]
    exact ⟨htail.1.trans hstep.1, htail.2.trans hstep.2.1⟩

lemma pathStemSuffix_length (n : String) :
    (pathStem n).data.length + (pathSuffix n).data.length = n.data.length := by
  unfold pathStem pathSuffix
  cases hfd : rfindDot n.data with
  | none => simp
  | some i =>
    by_cases hc : 0 < i ∧ i < n.data.length - 1
    · simp only [hc, if_true]
      simp
      omega
    · simp only [hc, if_false]
      simp

lemma renamed_ne (n ts : String) :
    pathStem n ++ "_" ++ ts ++ pathSuffix n ≠ n := by
  intro h
  have hl := congrArg (fun s : String => s.data.length) h
  simp only [string_append_data, List.length_append, List.length_singleton] at hl
  have hs := pathStemSuffix_length n
  omega

/-- Claim C1: content strategy end to end. A document whose first
non-empty whitespace-trimmed paragraph starts with the marker phrase
classifies as investment advice and the copier does not place a copy in
the destination directory (the loop state gains only a skip log entry);
a document whose first non-empty trimmed paragraph does not start with
the marker phrase, including a document with no non-empty paragraph,
classifies as not investment advice and the copier places a copy at the
computed target name in the destination directory. -/
theorem content_strategy_end_to_end (c : Candidate) (ps : List String) (st : RunState)
    (hread : c.read = ReadResult.ok ps) (hcopy : c.copyFails = false) :
    (strStartsWith (firstPara ps) markerPhrase = true →
      isInvestmentAdvice true c = true ∧
      processOne true st c = { st with log := st.log ++ [StepOutcome.skipped] }) ∧
    (strStartsWith (firstPara ps) markerPhrase = false →
      isInvestmentAdvice true c = false ∧
      (processOne true st c).copiedCount = st.copiedCount + 1 ∧
      targetName st c ∈ (processOne true st c).destFiles ∧
      (processOne true st c).log = st.log ++ [StepOutcome.copied (targetName st c)]) := by
  constructor
  · intro hm
    have hsc : shouldCopy true c = false := by
      simp [shouldCopy, extract_first_paragraph, hread, hm]
    refine ⟨by simp [isInvestmentAdvice, hsc], ?_⟩
    simp [processOne, hsc, hread]
  · intro hm
    have hsc : shouldCopy true c = true := by
      simp [shouldCopy, extract_first_paragraph, hread, hm]
    have hc := processOne_of_copy true st c hsc hcopy
    refine ⟨by simp [isInvestmentAdvice, hsc], hc.2.1, ?_, hc.2.2.2.2⟩
    rw [hc.1]
    by_cases hmem : targetName st c ∈ st.destFiles
    · simp [hmem]
    · simp [hmem]

/-- Claim C1 witness: the theorem applied to a concrete marker document
and a concrete non-marker document starting from an empty destination. -/
theorem content_strategy_end_to_end_witness :
    isInvestmentAdvice true cW1 = true ∧ isInvestmentAdvice true cW2 = false :=
  ⟨((content_strategy_end_to_end cW1 ["  投资建议：买入XYZ  "] (initState []) rfl rfl).1
      (by decide)).1,
   ((content_strategy_end_to_end cW2 ["", "市场观察：走强"] (initState []) rfl rfl).2
      (by decide)).1⟩

/-- Claim C2: filename fallback strategy. When the parsing capability is
unavailable, the classifier verdict is true exactly when the lowercased
file name contains one of the five fixed keywords, and the verdict
depends only on the file name, never on the content. -/
theorem filename_fallback_iff (c : Candidate) :
    (isInvestmentAdvice false c = true ↔
      ∃ k ∈ investment_keywords, strContains (strToLower c.name) k = true) ∧
    ∀ c' : Candidate, c'.name = c.name →
      isInvestmentAdvice false c' = isInvestmentAdvice false c := by
  constructor
  · simp [isInvestmentAdvice, shouldCopy, is_investment_advice_by_filename,
      List.any_eq_true]
  · intro c' h
    simp [isInvestmentAdvice, shouldCopy, is_investment_advice_by_filename, h]

/-- Claim C2 witness: a file whose name contains the keyword 投资
classifies as true, and the verdict is unchanged for a same-named file
with different content; a keyword-free name classifies as false. -/
theorem filename_fallback_iff_witness :
    isInvestmentAdvice false cW3 = true ∧
    isInvestmentAdvice false cW4 = isInvestmentAdvice false cW3 ∧
    isInvestmentAdvice false cW8 = false :=
  ⟨(filename_fallback_iff cW3).1.2 ⟨"投资", by decide, by decide⟩,
   (filename_fallback_iff cW3).2 cW4 rfl,
   by decide⟩

/-- Claim C3: read-failure default. A candidate whose document cannot be
opened or parsed classifies as not investment advice (so it is copied),
the per-file read error counter records the logged error, and the loop
still processes every remaining candidate. -/
theorem read_failure_defaults_to_copy (c : Candidate) (st : RunState)
    (rest : List Candidate) (h : c.read = ReadResult.readError) :
    isInvestmentAdvice true c = false ∧
    (processOne true st c).readErrorCount = st.readErrorCount + 1 ∧
    (runCandidates true st (c :: rest)).log.length
      = st.log.length + 1 + rest.length := by
  have hsc : shouldCopy true c = true := by
    simp [shouldCopy, extract_first_paragraph, h, marker_not_on_empty]
  refine ⟨by simp [isInvestmentAdvice, hsc], ?_, ?_⟩
  · cases hcf : c.copyFails
    · simp [processOne, hsc, hcf, h]
    · simp [processOne, hsc, hcf, h]
  · rw [runCandidates_log_length]
    simp
    omega

/-- Claim C3 witness: the theorem applied to a concrete unreadable
candidate followed by one further candidate. -/
theorem read_failure_defaults_to_copy_witness :
    isInvestmentAdvice true cW7 = false ∧
    (processOne true (initState []) cW7).readErrorCount = 0 + 1 ∧
    (runCandidates true (initState []) (cW7 :: [cW2])).log.length = 0 + 1 + 1 :=
  read_failure_defaults_to_copy cW7 (initState []) [cW2] rfl

/-- Claim C10: noninterference of the content strategy. The verdict of
the content strategy depends only on the first non-empty trimmed
paragraph: two documents with equal first non-empty trimmed paragraphs
receive identical verdicts, whatever their file names, later paragraphs
or other fields. -/
theorem content_noninterference (c c' : Candidate) (ps ps' : List String)
    (h : c.read = ReadResult.ok ps) (h' : c'.read = ReadResult.ok ps')
    (heq : firstPara ps = firstPara ps') :
    isInvestmentAdvice true c = isInvestmentAdvice true c' := by
  simp [isInvestmentAdvice, shouldCopy, extract_first_paragraph, h, h', heq]

/-- Claim C10 witness: a document whose marker phrase appears only in a
later paragraph gets the same verdict as one without it, and is indeed
copied (verdict false). -/
theorem content_noninterference_witness :
    isInvestmentAdvice true cW5 = isInvestmentAdvice true cW6 ∧
    shouldCopy true cW5 = true :=
  ⟨content_noninterference cW5 cW6 ["市场观察", "投资建议：买入"] ["市场观察"]
      rfl rfl (by decide),
   by decide⟩

/-- Claim C7: per-file error isolation. A candidate whose copy raises an
I/O error leaves the destination, the copied-count and the overwrite
count untouched, adds one per-file error log entry, and the loop then
continues with exactly the remaining candidates; over any candidate
list every candidate is attempted exactly once, producing exactly one
outcome log entry each. -/
theorem per_file_error_isolation (d : Bool) (st : RunState) (c : Candidate)
    (rest : List Candidate)
    (hsc : shouldCopy d c = true) (hcf : c.copyFails = true) :
    (processOne d st c).destFiles = st.destFiles ∧
    (processOne d st c).copiedCount = st.copiedCount ∧
    (processOne d st c).errorCount = st.errorCount + 1 ∧
    (processOne d st c).log = st.log ++ [StepOutcome.errored] ∧
    runCandidates d st (c :: rest) = runCandidates d (processOne d st c) rest ∧
    ∀ cs : List Candidate,
      (runCandidates d st cs).log.length = st.log.length + cs.length := by
  have h := processOne_of_copyFail d st c hsc hcf
  exact ⟨h.1, h.2.1, h.2.2.2.1, h.2.2.2.2, rfl, fun cs => runCandidates_log_length d cs st⟩

/-- Claim C7 witness: the theorem applied to a concrete candidate whose
copy fails, followed by one further candidate. -/
theorem per_file_error_isolation_witness :
    (processOne true (initState []) cW8).destFiles = [] ∧
    (processOne true (initState []) cW8).copiedCount = 0 ∧
    (processOne true (initState []) cW8).errorCount = 0 + 1 ∧
    (processOne true (initState []) cW8).log = [] ++ [StepOutcome.errored] ∧
    runCandidates true (initState []) (cW8 :: [cW2])
      = runCandidates true (processOne true (initState []) cW8) [cW2] ∧
    ∀ cs : List Candidate,
      (runCandidates true (initState []) cs).log.length = 0 + cs.length :=
  per_file_error_isolation true (initState []) cW8 [cW2] (by decide) (by decide)

/-- Claim C8: idempotence of skip. When every candidate classifies as
investment advice, the run copies nothing: the destination directory is
unchanged and the copied-count is 0, and a second run over the same
tree starting from the destination the first run left behind again
copies nothing. -/
theorem skip_idempotent (d : Bool) (dest : List String) (cs : List Candidate)
    (h : ∀ c ∈ cs, isInvestmentAdvice d c = true) :
    (runCandidates d (initState dest) cs).copiedCount = 0 ∧
    (runCandidates d (initState dest) cs).destFiles = dest ∧
    (runCandidates d
      (initState (runCandidates d (initState dest) cs).destFiles) cs).copiedCount = 0 ∧
    (runCandidates d
      (initState (runCandidates d (initState dest) cs).destFiles) cs).destFiles = dest := by
  have hsc : ∀ c ∈ cs, shouldCopy d c = false := by
    intro c hc
    have := h c hc
    simp [isInvestmentAdvice] at this
    exact this
  have h1 := runCandidates_skip_all d cs hsc (initState dest)
  have hdest : (runCandidates d (initState dest) cs).destFiles = dest := h1.1
  have h2 := runCandidates_skip_all d cs hsc
    (initState (runCandidates d (initState dest) cs).destFiles)
  exact ⟨h1.2, hdest, h2.2, h2.1.trans hdest⟩

/-- Claim C8 witness: the theorem applied to a source tree holding one
investment-advice document. -/
theorem skip_idempotent_witness :
    (runCandidates true (initState []) [cW9]).copiedCount = 0 ∧
    (runCandidates true (initState []) [cW9]).destFiles = [] ∧
    (runCandidates true
      (initState (runCandidates true (initState []) [cW9]).destFiles) [cW9]).copiedCount = 0 ∧
    (runCandidates true
      (initState (runCandidates true (initState []) [cW9]).destFiles) [cW9]).destFiles = [] :=
  skip_idempotent true [] [cW9] (by decide)

/-- Claim C9: counter invariant. The copied-count starts at 0 and the
final count equals the number of successfully copied candidates, i.e.
the number of copied entries in the outcome log — skipped and errored
candidates never increment it. -/
theorem copied_count_invariant (d : Bool) (dest : List String) (cs : List Candidate) :
    (initState dest).copiedCount = 0 ∧
    (runCandidates d (initState dest) cs).copiedCount
      = countCopied (runCandidates d (initState dest) cs).log :=
  ⟨rfl, runCandidates_count_inv d cs (initState dest) rfl⟩

/-- Claim C4 counterexample: with no argument and a missing source
directory the run finishes with exit code 0 — not a non-zero code — and
the date-stamped destination directory creation has already been
invoked, so the run is not free of filesystem changes. -/
theorem missing_source_dir_counterexample :
    (mainRun true wMissing none).exitCode = 0 ∧
    (mainRun true wMissing none).mkdirInvoked = true ∧
    (mainRun true wMissing none).ranState = none := by decide

/-- Claim C4 amended: when the tool runs with no argument and the fixed
source directory does not exist, it prints an error and returns without
classifying or copying anything, the process exits with code 0 (not a
non-zero code), and the only filesystem change is the creation of the
date-stamped destination directory, which happens before the source
directory check. -/
theorem missing_source_dir_behavior (d : Bool) (w : World)
    (h : w.sourceDirExists = false) :
    mainRun d w none
      = { exitCode := 0, mkdirInvoked := true, ranState := none } := by
  simp [mainRun, h]

/-- Claim C4 witness: the amended theorem applied to the concrete world
without a source directory. -/
theorem missing_source_dir_behavior_witness :
    mainRun true wMissing none
      = { exitCode := 0, mkdirInvoked := true, ranState := none } :=
  missing_source_dir_behavior true wMissing rfl

/-- Claim C5 counterexample: two different source files named A.docx
processed in the same wall-clock second, with the destination already
holding A.docx and A_120000.docx, both land on already-existing paths:
the copier overwrites twice (the second copy even overwrites the
first), and no new file appears in the destination — refuting both
"yields two distinct files on disk" and "never overwrites an existing
destination file". -/
theorem collision_overwrite_counterexample :
    (runCandidates true (initState ["A.docx", "A_120000.docx"])
      [⟨"A.docx", ReadResult.ok ["市场观察"], false, "120000"⟩,
       ⟨"A.docx", ReadResult.ok ["行业分析"], false, "120000"⟩]).overwriteCount = 2 ∧
    (runCandidates true (initState ["A.docx", "A_120000.docx"])
      [⟨"A.docx", ReadResult.ok ["市场观察"], false, "120000"⟩,
       ⟨"A.docx", ReadResult.ok ["行业分析"], false, "120000"⟩]).destFiles
      = ["A.docx", "A_120000.docx"] := by decide

/-- Claim C5 amended: copying two different source files that share the
same file name into a destination directory that does not already hold
a file with that name nor with the recomputed stem_HHMMSS name yields
two distinct files on disk — the second renamed to the stem_HHMMSS
variant, which differs from the shared name — with no overwrite; when
either name is already present the copy overwrites it instead (the
accepted same-second edge case). -/
theorem collision_two_distinct_files (d : Bool) (dest : List String) (a b : Candidate)
    (hname : b.name = a.name)
    (ha : a.name ∉ dest)
    (hren : pathStem a.name ++ "_" ++ b.ts ++ pathSuffix a.name ∉ dest)
    (hsca : shouldCopy d a = true) (hscb : shouldCopy d b = true)
    (hcfa : a.copyFails = false) (hcfb : b.copyFails = false) :
    (runCandidates d (initState dest) [a, b]).destFiles
      = dest ++ [a.name] ++ [pathStem a.name ++ "_" ++ b.ts ++ pathSuffix a.name] ∧
    (runCandidates d (initState dest) [a, b]).overwriteCount = 0 ∧
    (runCandidates d (initState dest) [a, b]).copiedCount = 2 ∧
    pathStem a.name ++ "_" ++ b.ts ++ pathSuffix a.name ≠ a.name := by
  have hne := renamed_ne a.name b.ts
  have ht0 : targetName (initState dest) a = a.name := by
    simp [targetName, initState, ha]
  have h1 := processOne_of_copy d (initState dest) a hsca hcfa
  rw [ht0] at h1
  have hd1 : (processOne d (initState dest) a).destFiles = dest ++ [a.name] := by
    rw [h1.1]; simp [initState, ha]
  have ho1 : (processOne d (initState dest) a).overwriteCount = 0 := by
    rw [h1.2.2.1]; simp [initState, ha]
  have hc1 : (processOne d (initState dest) a).copiedCount = 1 := by
    rw [h1.2.1]
    rfl
  have ht1 : targetName (processOne d (initState dest) a) b
      = pathStem a.name ++ "_" ++ b.ts ++ pathSuffix a.name := by
    simp [targetName, hname, hd1]
  have h2 := processOne_of_copy d (processOne d (initState dest) a) b hscb hcfb
  rw [ht1] at h2
  have hmem2 : pathStem a.name ++ "_" ++ b.ts ++ pathSuffix a.name
      ∉ (processOne d (initState dest) a).destFiles := by
    rw [hd1]; simp [hren, hne]
  have hrun : runCandidates d (initState dest) [a, b]
      = processOne d (processOne d (initState dest) a) b := rfl
  refine ⟨?_, ?_, ?_, hne⟩
  · rw [hrun, h2.1, if_neg hmem2, hd1]
  · rw [hrun, h2.2.2.1, if_neg hmem2, ho1]
  · rw [hrun, h2.2.1, hc1]

/-- Claim C5 witness: the amended theorem applied to two concrete files
named A.docx copied into an empty destination in consecutive seconds. -/
theorem collision_two_distinct_files_witness :
    (runCandidates true (initState []) [cWa, cWb]).destFiles
      = [] ++ [cWa.name] ++ [pathStem cWa.name ++ "_" ++ cWb.ts ++ pathSuffix cWa.name] ∧
    (runCandidates true (initState []) [cWa, cWb]).overwriteCount = 0 ∧
    (runCandidates true (initState []) [cWa, cWb]).copiedCount = 2 ∧
    pathStem cWa.name ++ "_" ++ cWb.ts ++ pathSuffix cWa.name ≠ cWa.name :=
  collision_two_distinct_files true [] cWa cWb rfl (by decide) (by decide)
    (by decide) (by decide) rfl rfl

/-- Claim C6: invalid single-file argument. When the explicit path does
not exist or lacks the lowercased .docx extension, the run prints the
error and stops: the destination directory is not created, no candidate
is classified or copied, and the process exits with code 0. -/
theorem invalid_single_file_noop (d : Bool) (w : World) (a : SingleArg)
    (h : ¬(a.fileExists = true ∧ strToLower (pathSuffix a.cand.name) = ".docx")) :
    mainRun d w (some a)
      = { exitCode := 0, mkdirInvoked := false, ranState := none } := by
  simp only [mainRun]
  rw [if_neg h]

/-- Claim C6 witness: the theorem applied to an existing .txt path. -/
theorem invalid_single_file_noop_witness :
    mainRun true wEmpty (some aW)
      = { exitCode := 0, mkdirInvoked := false, ranState := none } :=
  invalid_single_file_noop true wEmpty aW (by decide)
